import Mathlib

/-!
Shallow embedding of `build-scripts/gen-ui-info.py`: the map-file parser,
the source-comment scanner, the INI-style comment-field parser and the
recursive dictionary merge, together with theorems checking the spec's
claims about them.

Python strings are modelled as Lean `String` (lists of characters),
Python dictionaries as ordered association lists (insertion order is
what Python preserves), Python integers as `Nat` (all values involved
are non-negative), and Python exceptions as an explicit error type
threaded through `Except`.
-/

namespace GenUiInfo

/-- JSON-like values: the shapes stored in the script's nested dicts. -/
inductive Val where
  | str : String → Val
  | nat : Nat → Val
  | list : List Val → Val
  | dict : List (String × Val) → Val
deriving Repr

/-- Python exceptions that the script can raise while parsing. -/
inductive PErr where
  | stopIteration
  | attrError
  | valueError
  | keyError
  | typeError
  | exceptionMsg : String → PErr
deriving DecidableEq, Repr

/-- Characters stripped by Python's `str.strip()` and matched by `\s`. -/
def isPySpace (c : Char) : Bool :=
  c = ' ' || c = '\t' || c = '\n' || c = '\r' || c = '\x0b' || c = '\x0c'

/-- Python `str.strip()` on a list of characters. -/
def pyStripL (cs : List Char) : List Char :=
  ((cs.dropWhile isPySpace).reverse.dropWhile isPySpace).reverse

/-- Python `str.strip()`. -/
def pyStrip (s : String) : String :=
  String.mk (pyStripL s.data)

/-- Test whether `pat` is a literal prefix of `cs`. -/
def startsWithL : List Char → List Char → Bool
  | [], _ => true
  | _ :: _, [] => false
  | p :: ps, c :: cs => p = c && startsWithL ps cs

/-- Python `s.split('\n')` on a list of characters. -/
def splitNL : List Char → List (List Char)
  | [] => [[]]
  | '\n' :: rest => [] :: splitNL rest
  | c :: rest =>
    match splitNL rest with
    | l :: ls => (c :: l) :: ls
    | [] => [[c]]

/-- Leftmost-match search: try the matcher at every start position. -/
def searchWith (m : List Char → Option α) : List Char → Option α
  | [] => m []
  | c :: rest =>
    match m (c :: rest) with
    | some r => some r
    | none => searchWith m rest

/-- Value of one hexadecimal digit. -/
def hexDigitVal (c : Char) : Option Nat :=
  if '0' ≤ c ∧ c ≤ '9' then some (c.toNat - '0'.toNat)
  else if 'a' ≤ c ∧ c ≤ 'f' then some (c.toNat - 'a'.toNat + 10)
  else if 'A' ≤ c ∧ c ≤ 'F' then some (c.toNat - 'A'.toNat + 10)
  else none

/-- Accumulate the value of a list of hexadecimal digits. -/
def hexDigits : List Char → Nat → Option Nat
  | [], acc => some acc
  | c :: rest, acc =>
    match hexDigitVal c with
    | none => none
    | some d => hexDigits rest (acc * 16 + d)

/-- Python `int(s, 16)` restricted to the `0x`-prefixed tokens the
regex groups produce; a token with a non-hex character is a
`ValueError` (`none`). -/
def hexVal (s : String) : Option Nat :=
  match s.data with
  | '0' :: 'x' :: rest => if rest.isEmpty then none else hexDigits rest 0
  | _ => none

/-- Match of `(0x\S+)\s+(0x\S+)` anchored at the start of `cs`: both
`\S+` runs are maximal (a shorter run would put a non-space character
where `\s` is required) and each must be non-empty. -/
def matchPairAt : List Char → Option (String × String)
  | '0' :: 'x' :: rest =>
    let r1 := rest.takeWhile (fun c => !(isPySpace c))
    let rest1 := rest.dropWhile (fun c => !(isPySpace c))
    if r1.isEmpty then none
    else
      let sp := rest1.takeWhile isPySpace
      let rest2 := rest1.dropWhile isPySpace
      if sp.isEmpty then none
      else
        match rest2 with
        | '0' :: 'x' :: rest3 =>
          let r2 := rest3.takeWhile (fun c => !(isPySpace c))
          if r2.isEmpty then none
          else some (String.mk ('0' :: 'x' :: r1), String.mk ('0' :: 'x' :: r2))
        | _ => none
  | _ => none

/-- Leftmost match of `(0x\S+)\s+(0x\S+)` (also used for
`0x\S+\s+(0x\S+)`, whose match positions are identical; only the group
numbering differs). -/
def searchPair (cs : List Char) : Option (String × String) :=
  searchWith matchPairAt cs

/-- Match of `0x\S+\s+(\S+)` anchored at the start of `cs`. -/
def matchHexTokAt : List Char → Option String
  | '0' :: 'x' :: rest =>
    let r1 := rest.takeWhile (fun c => !(isPySpace c))
    let rest1 := rest.dropWhile (fun c => !(isPySpace c))
    if r1.isEmpty then none
    else
      let sp := rest1.takeWhile isPySpace
      let rest2 := rest1.dropWhile isPySpace
      if sp.isEmpty then none
      else
        let r2 := rest2.takeWhile (fun c => !(isPySpace c))
        if r2.isEmpty then none else some (String.mk r2)
  | _ => none

/-- Leftmost match of `0x\S+\s+(\S+)`, giving the trailing token. -/
def searchHexTok (cs : List Char) : Option String :=
  searchWith matchHexTokAt cs

/-- Match of `(0x\S+)\s+<lit>` anchored at the start of `cs`, where
`lit` is a literal (e.g. `_kb_layout\n`). -/
def matchHexBeforeAt (lit : List Char) : List Char → Option String
  | '0' :: 'x' :: rest =>
    let r1 := rest.takeWhile (fun c => !(isPySpace c))
    let rest1 := rest.dropWhile (fun c => !(isPySpace c))
    if r1.isEmpty then none
    else
      let sp := rest1.takeWhile isPySpace
      let rest2 := rest1.dropWhile isPySpace
      if sp.isEmpty then none
      else if startsWithL lit rest2 then some (String.mk ('0' :: 'x' :: r1))
      else none
  | _ => none

/-- Leftmost match of `(0x\S+)\s+<lit>`, giving the hex token that
precedes the literal. -/
def searchHexBefore (lit : List Char) (cs : List Char) : Option String :=
  searchWith (matchHexBeforeAt lit) cs

/-- Backtracking step of `(kbfun_\S+)\s*\(void\)`: starting from the
maximal non-space run `r`, try ever shorter non-empty prefixes (the
greedy `\S+` prefers the longest) until the remainder continues with
optional whitespace and the literal `(void)`. -/
def tryVoidName (r : List Char) (rest4 : List Char) : Nat → Option String
  | 0 => none
  | k + 1 =>
    let taken := r.take (k + 1)
    let after := r.drop (k + 1)
    let ok :=
      if after.isEmpty then startsWithL "(void)".data (rest4.dropWhile isPySpace)
      else startsWithL "(void)".data (after ++ rest4)
    if ok then some (String.mk ("kbfun_".data ++ taken)) else tryVoidName r rest4 k

/-- Match of `void\s+(kbfun_\S+)\s*\(void\)` anchored at the start. -/
def matchKbfunAt (cs : List Char) : Option String :=
  if startsWithL "void".data cs then
    let rest0 := cs.drop 4
    let sp := rest0.takeWhile isPySpace
    let rest1 := rest0.dropWhile isPySpace
    if sp.isEmpty then none
    else if startsWithL "kbfun_".data rest1 then
      let rest2 := rest1.drop 6
      let r := rest2.takeWhile (fun c => !(isPySpace c))
      let rest4 := rest2.dropWhile (fun c => !(isPySpace c))
      tryVoidName r rest4 r.length
    else none
  else none

/-- Leftmost match of `void\s+(kbfun_\S+)\s*\(void\)`, giving the
captured function name. -/
def searchKbfun (cs : List Char) : Option String :=
  searchWith matchKbfunAt cs

/-- Substring occurrence that cannot cross a newline, as required by
`.*layout` (`.` does not match `\n`). -/
def containsBeforeNL (pat : List Char) (cs : List Char) : Bool :=
  (searchWith (fun t => if startsWithL pat t then some () else none)
      (cs.takeWhile (fun c => c ≠ '\n'))).isSome

/-- Trigger `re.search(r'^\s*\.text\.kbfun_', line)`. -/
def trigKbfun (line : String) : Bool :=
  startsWithL ".text.kbfun_".data (line.data.dropWhile isPySpace)

/-- Trigger `re.search(r'^\s*\.progmem\.data.*layout', line)`. -/
def trigLayout (line : String) : Bool :=
  let rest := line.data.dropWhile isPySpace
  startsWithL ".progmem.data".data rest &&
    containsBeforeNL "layout".data (rest.drop 13)

/-- First-occurrence lookup in an ordered association list (Python
`a[key]` read, with the keys unique in any real Python dict). -/
def lookupV : List (String × Val) → String → Option Val
  | [], _ => none
  | (k1, v1) :: rest, k => if k1 = k then some v1 else lookupV rest k

/-- Replace the value at the first occurrence of `k` (Python
`a[key] = v` on a present key, which keeps the key's position). -/
def replaceFirst : List (String × Val) → String → Val → List (String × Val)
  | [], _, _ => []
  | (k1, v1) :: rest, k, v =>
    if k1 = k then (k1, v) :: rest else (k1, v1) :: replaceFirst rest k v

/-- Keys of an association list, in order. -/
def keysOf (es : List (String × Val)) : List String :=
  es.map Prod.fst

mutual
/-- The script's `dict_merge(a, b)`: if both arguments are dicts,
merge `b`'s entries into `a` recursively; otherwise return `b`. -/
def dict_merge : Val → Val → Val
  | Val.dict da, Val.dict db => Val.dict (dm_entries da db)
  | _, b => b
termination_by _a b => 2 * sizeOf b

/-- The `for (key, value) in b.items()` loop of `dict_merge`. -/
def dm_entries : List (String × Val) → List (String × Val) → List (String × Val)
  | da, [] => da
  | da, (k, v) :: rest => dm_entries (dm_insert da k v) rest
termination_by _da l => 2 * sizeOf l

/-- One loop step: `a[key] = dict_merge(a[key], value)` when the key is
present, else `a[key] = value` (a Python dict appends new keys at the
end). -/
def dm_insert (da : List (String × Val)) (k : String) (v : Val) : List (String × Val) :=
  match lookupV da k with
  | some old => replaceFirst da k (dict_merge old v)
  | none => da ++ [(k, v)]
termination_by 2 * sizeOf v + 1
end

/-- Recursive well-formedness of a value: every dict (at any depth) has
pairwise-distinct keys, which is an invariant of every Python dict. -/
def wfB : Val → Bool
  | .str _ => true
  | .nat _ => true
  | .list [] => true
  | .list (v :: vs) => wfB v && wfB (.list vs)
  | .dict [] => true
  | .dict ((k, v) :: es) => !((keysOf es).contains k) && wfB v && wfB (.dict es)

/-- The `parse_keyboard_function` closure of `parse_mapfile`: consume
two lines after the trigger, read position and length from the first
and the trailing symbol name from the second. -/
def parse_keyboard_function (f : List String) : Except PErr Val :=
  match f with
  | [] => .error .stopIteration
  | l1 :: f1 =>
    match searchPair l1.data with
    | none => .error .attrError
    | some (g1, g2) =>
      match hexVal g1 with
      | none => .error .valueError
      | some position =>
        match hexVal g2 with
        | none => .error .valueError
        | some length =>
          match f1 with
          | [] => .error .stopIteration
          | l2 :: _ =>
            match searchHexTok l2.data with
            | none => .error .attrError
            | some name =>
              .ok (Val.dict [("keyboard-functions", Val.dict [(name,
                Val.dict [("position", Val.nat position),
                          ("length", Val.nat length)])])])

/-- The `parse_layout_matrices` closure of `parse_mapfile`: read the
length token from the trigger line, join the next three lines, locate
the hex position before each of the three fixed matrix names, and
record the three matrices; a position search that finds nothing makes
`.group(1)` fail on `None` (AttributeError), and the explicit
"not all layout matrices were found" exception fires only when the
three parsed positions are not all truthy (non-zero). -/
def parse_layout_matrices (line : String) (f : List String) : Except PErr Val :=
  match searchPair line.data with
  | none => .error .attrError
  | some (_, g) =>
    match hexVal g with
    | none => .error .valueError
    | some len =>
      let base_length := len / 5
      match f with
      | l1 :: l2 :: l3 :: _ =>
        let next_lines := l1 ++ l2 ++ l3
        match searchHexBefore "_kb_layout\n".data next_lines.data with
        | none => .error .attrError
        | some g1 =>
          match searchHexBefore "_kb_layout_press\n".data next_lines.data with
          | none => .error .attrError
          | some g2 =>
            match searchHexBefore "_kb_layout_release\n".data next_lines.data with
            | none => .error .attrError
            | some g3 =>
              match hexVal g1 with
              | none => .error .valueError
              | some layout_position =>
                match hexVal g2 with
                | none => .error .valueError
                | some layout_press_position =>
                  match hexVal g3 with
                  | none => .error .valueError
                  | some layout_release_position =>
                    if layout_position = 0 ∨ layout_press_position = 0 ∨
                        layout_release_position = 0 then
                      .error (.exceptionMsg
                        "parse_mapfile: not all layout matrices were found")
                    else
                      .ok (Val.dict [("layout-matrices", Val.dict [
                        ("_kb_layout", Val.dict [
                          ("position", Val.nat layout_position),
                          ("length", Val.nat base_length)]),
                        ("_kb_layout_press", Val.dict [
                          ("position", Val.nat layout_press_position),
                          ("length", Val.nat (base_length * 2))]),
                        ("_kb_layout_release", Val.dict [
                          ("position", Val.nat layout_release_position),
                          ("length", Val.nat (base_length * 2))])])])
      | _ => .error .stopIteration

/-- Main scan loop of `parse_mapfile` over the map file's lines.  A
keyboard-function trigger consumes two lookahead lines, a layout
trigger three; other lines are skipped. -/
def parse_mapfile_lines : List String → Val → Except PErr Val
  | [], output => .ok output
  | line :: f, output =>
    if trigKbfun line then
      match parse_keyboard_function f with
      | .error e => .error e
      | .ok v => parse_mapfile_lines (f.drop 2) (dict_merge output v)
    else if trigLayout line then
      match parse_layout_matrices line f with
      | .error e => .error e
      | .ok v => parse_mapfile_lines (f.drop 3) (dict_merge output v)
    else
      parse_mapfile_lines f output
termination_by l _v => l.length
decreasing_by
  all_goals simp [List.length_drop]
  all_goals omega

/-- The script's `parse_mapfile`, over the file's line sequence. -/
def parse_mapfile (f : List String) : Except PErr Val :=
  parse_mapfile_lines f (Val.dict [])

/-- The `add_field` closure of `parse_comments`.  Stripping a `None`
value fails (AttributeError, modelled as `none`); a `None` field is
ignored; `name`/`description` are stored once with first-wins; `note`
is renamed `notes`; every other field accumulates an ordered list. -/
def add_field (output : List (String × Val)) (field : Option String)
    (value : Option String) : Option (List (String × Val)) :=
  match value with
  | none => none
  | some raw =>
    let value := pyStrip raw
    match field with
    | none => some output
    | some field =>
      if field = "name" ∨ field = "description" then
        some (if (lookupV output field).isSome then output
              else output ++ [(field, Val.str value)])
      else
        let field := if field = "note" then "notes" else field
        match lookupV output field with
        | some (Val.list xs) =>
          some (replaceFirst output field (Val.list (xs ++ [Val.str value])))
        | some _ => none
        | none => some (output ++ [(field, Val.list [Val.str value])])

/-- Loop of `parse_comments` over the split lines, carrying the open
field and its accumulated value. -/
def pcLoop : List (List Char) → List (String × Val) → Option String →
    Option String → Except PErr (List (String × Val))
  | [], out, field, value =>
    match add_field out field value with
    | none => .error .attrError
    | some out2 => .ok out2
  | l :: rest, out, field, value =>
    let line := pyStripL l
    if startsWithL ['['] line ∧ line.getLast? = some ']' then
      match add_field out field value with
      | none => .error .attrError
      | some out2 => pcLoop rest out2 (some (String.mk (line.drop 1).dropLast)) none
    else
      let v0 := value.getD ""
      let line2 := if v0.data.getLast? = some '.' then ' ' :: line else line
      pcLoop rest out field (some (v0 ++ " " ++ String.mk line2))

/-- The script's `parse_comments`: split the comment text on newlines
and fold the lines through `add_field`. -/
def parse_comments (comments : String) : Except PErr (List (String × Val)) :=
  pcLoop (splitNL comments.data) [] none none

/-- Scanner state while walking one source file: either normal
scanning with the most recently read comment block, or inside a
comment block accumulating its stripped lines. -/
inductive ScanSt where
  | normal : String → ScanSt
  | inComment : String → ScanSt

/-- Per-file loop of `parse_source_code`: a line that strips to `/*`
starts a comment read (`read_comments`), which accumulates
`line[2:].strip() + '\n'` for every line, the opening line included,
until a line that strips to `*/`; a `kbfun_` declaration line merges a
record whose `comments` field is the current block run through
`parse_comments`.  The block is not cleared after a match. -/
def scan_lines : List String → ScanSt → Val → Except PErr Val
  | [], st, output =>
    match st with
    | ScanSt.normal _ => .ok output
    | ScanSt.inComment _ => .error .stopIteration
  | line :: f, st, output =>
    match st with
    | ScanSt.inComment acc =>
      if pyStrip line = "*/" then
        scan_lines f (ScanSt.normal acc) output
      else
        scan_lines f
          (ScanSt.inComment (acc ++ pyStrip (String.mk (line.data.drop 2)) ++ "\n"))
          output
    | ScanSt.normal comments =>
      if pyStrip line = "/*" then
        scan_lines f
          (ScanSt.inComment (pyStrip (String.mk (line.data.drop 2)) ++ "\n"))
          output
      else
        match searchKbfun line.data with
        | some name =>
          match parse_comments comments with
          | .error e => .error e
          | .ok cd =>
            scan_lines f st (dict_merge output (Val.dict [("keyboard-functions",
              Val.dict [(name, Val.dict [("comments", Val.dict cd)])])]))
        | none => scan_lines f st output

/-- Fold of `parse_source_code` over the source files (each given as
its line sequence); the comment state resets per file, the output dict
threads through. -/
def psc_files : List (List String) → Val → Except PErr Val
  | [], output => .ok output
  | file :: rest, output =>
    match scan_lines file (ScanSt.normal "") output with
    | .error e => .error e
    | .ok out2 => psc_files rest out2

/-- The script's `parse_source_code`, starting from an empty output. -/
def parse_source_code (files : List (List String)) : Except PErr Val :=
  psc_files files (Val.dict [])

/-- The script's `gen_derived`: read
`data['layout-matrices']['_kb_layout']['length']`, divide by `6*14`
(84 bytes per layer) truncating, and wrap the layer count. -/
def gen_derived (data : Val) : Except PErr Val :=
  match data with
  | Val.dict es =>
    match lookupV es "layout-matrices" with
    | none => .error .keyError
    | some (Val.dict lm) =>
      match lookupV lm "_kb_layout" with
      | none => .error .keyError
      | some (Val.dict r) =>
        match lookupV r "length" with
        | none => .error .keyError
        | some (Val.nat len) =>
          .ok (Val.dict [("miscellaneous",
            Val.dict [("number-of-layers", Val.nat (len / (6 * 14)))])])
        | some _ => .error .typeError
      | some _ => .error .typeError
    | some _ => .error .typeError
  | _ => .error .typeError

/-!  Theorems: the claims about the script, checked against the
embedding above. -/

/-- C1, counterexample: on the exact input
`"[name]\nFoo\n[description]\nBar.\nBaz\n[note]\nOne\n[note]\nTwo\n"`
the comment-field parser does not return the claimed mapping: the very
first line is a field marker, so `add_field` is called with the
still-`None` accumulated value and `value.strip()` fails
(AttributeError). -/
theorem c1_exact_input_crashes :
    parse_comments "[name]\nFoo\n[description]\nBar.\nBaz\n[note]\nOne\n[note]\nTwo\n" =
      .error .attrError ∧
    parse_comments "[name]\nFoo\n[description]\nBar.\nBaz\n[note]\nOne\n[note]\nTwo\n" ≠
      .ok [("name", Val.str "Foo"), ("description", Val.str "Bar.  Baz"),
           ("notes", Val.list [Val.str "One", Val.str "Two"])] := by
  have h1 : parse_comments
      "[name]\nFoo\n[description]\nBar.\nBaz\n[note]\nOne\n[note]\nTwo\n" =
      .error .attrError := rfl
  exact ⟨h1, by rw [h1]; simp⟩

/-- C1, amended: on the input as the scanner actually produces it — the
comment text always begins with the stripped opening line, hence with a
leading empty line — the parser returns exactly
`{"name": "Foo", "description": "Bar.  Baz", "notes": ["One", "Two"]}`,
with the doubled space after the period. -/
theorem c1_with_leading_blank_line :
    parse_comments "\n[name]\nFoo\n[description]\nBar.\nBaz\n[note]\nOne\n[note]\nTwo\n" =
      .ok [("name", Val.str "Foo"), ("description", Val.str "Bar.  Baz"),
           ("notes", Val.list [Val.str "One", Val.str "Two"])] := rfl

/-- C6: on the trigger line `.text.kbfun_foo` followed by
`0x00001000   0x00000020` and `0x00001000   kbfun_foo`, the map-file
parser yields exactly
`{"keyboard-functions": {"kbfun_foo": {"position": 4096, "length": 32}}}`:
position and length are the two hex numbers of the first lookahead line,
the key is the trailing token of the second. -/
theorem c6_keyboard_function_block :
    parse_mapfile [".text.kbfun_foo\n", "0x00001000   0x00000020\n",
                   "0x00001000   kbfun_foo\n"] =
      .ok (Val.dict [("keyboard-functions", Val.dict [("kbfun_foo",
        Val.dict [("position", Val.nat 4096), ("length", Val.nat 32)])])]) := by
  simp +decide [parse_mapfile, parse_mapfile_lines, parse_keyboard_function,
    dict_merge, dm_entries, dm_insert, lookupV, replaceFirst,
    searchPair, searchWith, matchPairAt, searchHexTok, matchHexTokAt,
    hexVal, hexDigits, hexDigitVal, isPySpace, startsWithL,
    List.takeWhile, List.dropWhile]

/-- C3: on a layout trigger block whose three lookahead lines lack one
of the fixed matrix names (`_kb_layout_release` here), the scan does
not fail with the explicit "not all layout matrices were found"
exception the claim (and the code's own raise statement) intends: the
per-name `re.search` returns `None` and `.group(1)` fails first
(AttributeError).  No partial layout-matrices entry is produced, since
the error aborts the whole parse. -/
theorem c3_missing_matrix_attribute_error :
    parse_mapfile [".progmem.data.layout  0x00000810   0x000004ec\n",
      "  0x00000810   _kb_layout\n", "  0x0000090c   _kb_layout_press\n",
      "  0x00000a08   _kb_other\n"] = .error .attrError ∧
    parse_mapfile [".progmem.data.layout  0x00000810   0x000004ec\n",
      "  0x00000810   _kb_layout\n", "  0x0000090c   _kb_layout_press\n",
      "  0x00000a08   _kb_other\n"] ≠
      .error (.exceptionMsg "parse_mapfile: not all layout matrices were found") := by
  have h1 : parse_mapfile [".progmem.data.layout  0x00000810   0x000004ec\n",
      "  0x00000810   _kb_layout\n", "  0x0000090c   _kb_layout_press\n",
      "  0x00000a08   _kb_other\n"] = .error .attrError := by
    simp +decide [parse_mapfile, parse_mapfile_lines, parse_layout_matrices,
      searchPair, searchWith, matchPairAt, searchHexBefore, matchHexBeforeAt,
      hexVal, hexDigits, hexDigitVal, isPySpace, startsWithL, containsBeforeNL,
      List.takeWhile, List.dropWhile]
  exact ⟨h1, by rw [h1]; simp⟩

set_option maxRecDepth 100000 in
/-- C2, counterexample: the scanner does not bind a comment block only
to the declaration immediately following it.  In a file containing one
comment block, then `kbfun_one`, then `kbfun_two` with no comment of
its own, `kbfun_two` is recorded with the comments of the earlier
block (`{"name": "A"}`), not with an empty comments mapping: the
"most recently read comment block" is never cleared after a match. -/
theorem c2_stale_comment_binding :
    parse_source_code [["/*", " * [name]", " * A", "*/",
      "void kbfun_one(void)", "void kbfun_two(void)"]] =
      .ok (Val.dict [("keyboard-functions", Val.dict [
        ("kbfun_one", Val.dict [("comments", Val.dict [("name", Val.str "A")])]),
        ("kbfun_two", Val.dict [("comments", Val.dict [("name", Val.str "A")])])])]) ∧
    parse_source_code [["/*", " * [name]", " * A", "*/",
      "void kbfun_one(void)", "void kbfun_two(void)"]] ≠
      .ok (Val.dict [("keyboard-functions", Val.dict [
        ("kbfun_one", Val.dict [("comments", Val.dict [("name", Val.str "A")])]),
        ("kbfun_two", Val.dict [("comments", Val.dict [])])])]) := by
  have h0 : parse_source_code [["/*", " * [name]", " * A", "*/",
      "void kbfun_one(void)", "void kbfun_two(void)"]] =
      .ok (dict_merge (dict_merge (Val.dict [])
        (Val.dict [("keyboard-functions", Val.dict [("kbfun_one",
          Val.dict [("comments", Val.dict [("name", Val.str "A")])])])]))
        (Val.dict [("keyboard-functions", Val.dict [("kbfun_two",
          Val.dict [("comments", Val.dict [("name", Val.str "A")])])])])) := rfl
  have h1 : parse_source_code [["/*", " * [name]", " * A", "*/",
      "void kbfun_one(void)", "void kbfun_two(void)"]] =
      .ok (Val.dict [("keyboard-functions", Val.dict [
        ("kbfun_one", Val.dict [("comments", Val.dict [("name", Val.str "A")])]),
        ("kbfun_two", Val.dict [("comments", Val.dict [("name", Val.str "A")])])])]) := by
    rw [h0]
    simp [dict_merge, dm_entries, dm_insert, lookupV, replaceFirst]
  exact ⟨h1, by rw [h1]; simp⟩

set_option maxRecDepth 100000 in
/-- C2, amended: a matched `kbfun_` declaration binds the file's most
recently read comment block, which is initially empty: a function with
no comment block anywhere earlier in its file gets a record with an
empty comments mapping (no crash, no missing key), while a function
not immediately preceded by a comment block otherwise inherits the
block an earlier function already bound. -/
theorem c2_amended_binding :
    parse_source_code [["void kbfun_solo(void)"]] =
      .ok (Val.dict [("keyboard-functions", Val.dict [
        ("kbfun_solo", Val.dict [("comments", Val.dict [])])])]) ∧
    parse_source_code [["/*", " * [name]", " * A", "*/",
      "void kbfun_first(void)", "void kbfun_second(void)"]] =
      .ok (Val.dict [("keyboard-functions", Val.dict [
        ("kbfun_first", Val.dict [("comments", Val.dict [("name", Val.str "A")])]),
        ("kbfun_second", Val.dict [("comments", Val.dict [("name", Val.str "A")])])])]) := by
  constructor
  · have h0 : parse_source_code [["void kbfun_solo(void)"]] =
        .ok (dict_merge (Val.dict [])
          (Val.dict [("keyboard-functions", Val.dict [("kbfun_solo",
            Val.dict [("comments", Val.dict [])])])])) := rfl
    rw [h0]
    simp [dict_merge, dm_entries, dm_insert, lookupV, replaceFirst]
  · have h0 : parse_source_code [["/*", " * [name]", " * A", "*/",
        "void kbfun_first(void)", "void kbfun_second(void)"]] =
        .ok (dict_merge (dict_merge (Val.dict [])
          (Val.dict [("keyboard-functions", Val.dict [("kbfun_first",
            Val.dict [("comments", Val.dict [("name", Val.str "A")])])])]))
          (Val.dict [("keyboard-functions", Val.dict [("kbfun_second",
            Val.dict [("comments", Val.dict [("name", Val.str "A")])])])])) := rfl
    rw [h0]
    simp [dict_merge, dm_entries, dm_insert, lookupV, replaceFirst]

/-- C7: whenever the layout trigger line carries a hex length token of
value `L` and the three-line lookahead block contains a hex position
before each of the three fixed matrix names (in any order, all
non-zero), the three records are `_kb_layout` with length `L / 5` and
the press/release variants with length `(L / 5) * 2`, each at the
position found before its own name. -/
theorem c7_layout_lengths
    (line l1 l2 l3 : String) (rest : List String)
    (g0 g gp1 gp2 gp3 : String) (L p1 p2 p3 : Nat)
    (hline : searchPair line.data = some (g0, g))
    (hL : hexVal g = some L)
    (h1 : searchHexBefore "_kb_layout\n".data (l1 ++ l2 ++ l3).data = some gp1)
    (h2 : searchHexBefore "_kb_layout_press\n".data (l1 ++ l2 ++ l3).data = some gp2)
    (h3 : searchHexBefore "_kb_layout_release\n".data (l1 ++ l2 ++ l3).data = some gp3)
    (hp1 : hexVal gp1 = some p1) (hp2 : hexVal gp2 = some p2) (hp3 : hexVal gp3 = some p3)
    (hz1 : p1 ≠ 0) (hz2 : p2 ≠ 0) (hz3 : p3 ≠ 0) :
    parse_layout_matrices line (l1 :: l2 :: l3 :: rest) =
      .ok (Val.dict [("layout-matrices", Val.dict [
        ("_kb_layout", Val.dict [
          ("position", Val.nat p1), ("length", Val.nat (L / 5))]),
        ("_kb_layout_press", Val.dict [
          ("position", Val.nat p2), ("length", Val.nat (L / 5 * 2))]),
        ("_kb_layout_release", Val.dict [
          ("position", Val.nat p3), ("length", Val.nat (L / 5 * 2))])])]) := by
  simp at h1 h2 h3
  simp [parse_layout_matrices, hline, hL, h1, h2, h3, hp1, hp2, hp3, hz1, hz2, hz3]

/-- C7 witness: a concrete trigger block whose three lookahead lines
are in scrambled order (press, release, then `_kb_layout`): the length
token `0x4ec` gives 1260 / 5 = 252 for `_kb_layout` and 504 for the
other two, and each position binds by name, not by line order. -/
theorem c7_layout_lengths_witness :
    parse_layout_matrices " .progmem.data.layout 0x00000810 0x000004ec\n"
      [" 0x0000090c   _kb_layout_press\n", " 0x00000a08   _kb_layout_release\n",
       " 0x00000810   _kb_layout\n"] =
      .ok (Val.dict [("layout-matrices", Val.dict [
        ("_kb_layout", Val.dict [
          ("position", Val.nat 2064), ("length", Val.nat (1260 / 5))]),
        ("_kb_layout_press", Val.dict [
          ("position", Val.nat 2316), ("length", Val.nat (1260 / 5 * 2))]),
        ("_kb_layout_release", Val.dict [
          ("position", Val.nat 2568), ("length", Val.nat (1260 / 5 * 2))])])]) :=
  c7_layout_lengths " .progmem.data.layout 0x00000810 0x000004ec\n"
    " 0x0000090c   _kb_layout_press\n" " 0x00000a08   _kb_layout_release\n"
    " 0x00000810   _kb_layout\n" []
    "0x00000810" "0x000004ec" "0x00000810" "0x0000090c" "0x00000a08"
    1260 2064 2316 2568
    rfl rfl rfl rfl rfl rfl rfl rfl
    (by decide) (by decide) (by decide)

/-- C10: when the three-line lookahead block contains all three matrix
names but at least one parsed position is zero (a symbol at address
0x0), the parser still raises the "not all layout matrices were found"
exception: the check tests the truthiness of the three position
integers, not whether the names were located. -/
theorem c10_zero_position_raises
    (line l1 l2 l3 : String) (rest : List String)
    (g0 g gp1 gp2 gp3 : String) (L p1 p2 p3 : Nat)
    (hline : searchPair line.data = some (g0, g))
    (hL : hexVal g = some L)
    (h1 : searchHexBefore "_kb_layout\n".data (l1 ++ l2 ++ l3).data = some gp1)
    (h2 : searchHexBefore "_kb_layout_press\n".data (l1 ++ l2 ++ l3).data = some gp2)
    (h3 : searchHexBefore "_kb_layout_release\n".data (l1 ++ l2 ++ l3).data = some gp3)
    (hp1 : hexVal gp1 = some p1) (hp2 : hexVal gp2 = some p2) (hp3 : hexVal gp3 = some p3)
    (hz : p1 = 0 ∨ p2 = 0 ∨ p3 = 0) :
    parse_layout_matrices line (l1 :: l2 :: l3 :: rest) =
      .error (.exceptionMsg "parse_mapfile: not all layout matrices were found") := by
  simp at h1 h2 h3
  simp [parse_layout_matrices, hline, hL, h1, h2, h3, hp1, hp2, hp3, hz]

/-- C10 witness: all three names present, `_kb_layout` placed at
address `0x0`: the explicit exception fires. -/
theorem c10_zero_position_raises_witness :
    parse_layout_matrices " .progmem.data.layout 0x00000810 0x000004ec\n"
      [" 0x0   _kb_layout\n", " 0x0000090c   _kb_layout_press\n",
       " 0x00000a08   _kb_layout_release\n"] =
      .error (.exceptionMsg "parse_mapfile: not all layout matrices were found") :=
  c10_zero_position_raises " .progmem.data.layout 0x00000810 0x000004ec\n"
    " 0x0   _kb_layout\n" " 0x0000090c   _kb_layout_press\n"
    " 0x00000a08   _kb_layout_release\n" []
    "0x00000810" "0x000004ec" "0x0" "0x0000090c" "0x00000a08"
    1260 0 2316 2568
    rfl rfl rfl rfl rfl rfl rfl rfl
    (Or.inl rfl)

/-- C8: the derived field `miscellaneous` / `number-of-layers` equals
the `_kb_layout` record's `length` integer-divided by 6*14 = 84 bytes
per layer; in particular a length of 252 yields 3 layers. -/
theorem c8_number_of_layers (es lm r : List (String × Val)) (L : Nat)
    (hlm : lookupV es "layout-matrices" = some (Val.dict lm))
    (hkb : lookupV lm "_kb_layout" = some (Val.dict r))
    (hlen : lookupV r "length" = some (Val.nat L)) :
    gen_derived (Val.dict es) =
      .ok (Val.dict [("miscellaneous",
        Val.dict [("number-of-layers", Val.nat (L / 84))])]) ∧
    (L = 252 → gen_derived (Val.dict es) =
      .ok (Val.dict [("miscellaneous",
        Val.dict [("number-of-layers", Val.nat 3)])])) := by
  constructor
  · simp [gen_derived, hlm, hkb, hlen]
  · intro hl
    subst hl
    simp [gen_derived, hlm, hkb, hlen]

/-- C8 witness: a merged tree whose `_kb_layout` length is 252 derives
`number-of-layers` = 3. -/
theorem c8_number_of_layers_witness :
    gen_derived (Val.dict [("layout-matrices", Val.dict [("_kb_layout",
        Val.dict [("position", Val.nat 2064), ("length", Val.nat 252)])])]) =
      .ok (Val.dict [("miscellaneous",
        Val.dict [("number-of-layers", Val.nat (252 / 84))])]) ∧
    gen_derived (Val.dict [("layout-matrices", Val.dict [("_kb_layout",
        Val.dict [("position", Val.nat 2064), ("length", Val.nat 252)])])]) =
      .ok (Val.dict [("miscellaneous",
        Val.dict [("number-of-layers", Val.nat 3)])]) := by
  have h := c8_number_of_layers
    [("layout-matrices", Val.dict [("_kb_layout",
      Val.dict [("position", Val.nat 2064), ("length", Val.nat 252)])])]
    [("_kb_layout", Val.dict [("position", Val.nat 2064), ("length", Val.nat 252)])]
    [("position", Val.nat 2064), ("length", Val.nat 252)]
    252 rfl rfl rfl
  exact ⟨h.1, h.2 rfl⟩

/-- C9: in `add_field`, the fields `name` and `description` are stored
at most once — when the field is already present the closed value is
silently dropped (first wins), when absent the stripped value is
stored — while `note` (renamed `notes`) and every other field name
append each closed value to an ordered sequence; consequently a second
`[name]` section in a comment is ignored and the first value kept. -/
theorem c9_first_wins_and_accumulate :
    (∀ (out : List (String × Val)) (fld v : String) (w : Val),
      (fld = "name" ∨ fld = "description") → lookupV out fld = some w →
      add_field out (some fld) (some v) = some out) ∧
    (∀ (out : List (String × Val)) (fld v : String),
      (fld = "name" ∨ fld = "description") → lookupV out fld = none →
      add_field out (some fld) (some v) = some (out ++ [(fld, Val.str (pyStrip v))])) ∧
    (∀ (out : List (String × Val)) (v : String) (xs : List Val),
      lookupV out "notes" = some (Val.list xs) →
      add_field out (some "note") (some v) =
        some (replaceFirst out "notes" (Val.list (xs ++ [Val.str (pyStrip v)])))) ∧
    (∀ (out : List (String × Val)) (fld v : String) (xs : List Val),
      fld ≠ "name" → fld ≠ "description" → fld ≠ "note" →
      lookupV out fld = some (Val.list xs) →
      add_field out (some fld) (some v) =
        some (replaceFirst out fld (Val.list (xs ++ [Val.str (pyStrip v)])))) ∧
    parse_comments "\n[name]\nA\n[name]\nB\n" = .ok [("name", Val.str "A")] := by
  refine ⟨?_, ?_, ?_, ?_, rfl⟩
  · intro out fld v w hf hl
    rcases hf with h | h <;> subst h <;> simp [add_field, hl]
  · intro out fld v hf hl
    rcases hf with h | h <;> subst h <;> simp [add_field, hl]
  · intro out v xs hl
    simp [add_field, hl]
  · intro out fld v xs hn hd hno hl
    simp [add_field, hn, hd, hno, hl]

/-- C9 witness: a present `name` is kept unchanged, an absent
`description` is stored stripped, a `note` value is appended to
`notes`, and a free-form field accumulates under its own name. -/
theorem c9_first_wins_and_accumulate_witness :
    add_field [("name", Val.str "X")] (some "name") (some " Y ") =
      some [("name", Val.str "X")] ∧
    add_field [] (some "description") (some " D ") =
      some [("description", Val.str "D")] ∧
    add_field [("notes", Val.list [Val.str "a"])] (some "note") (some " b ") =
      some [("notes", Val.list [Val.str "a", Val.str "b"])] ∧
    add_field [("url", Val.list [Val.str "u1"])] (some "url") (some " u2 ") =
      some [("url", Val.list [Val.str "u1", Val.str "u2"])] :=
  ⟨c9_first_wins_and_accumulate.1 [("name", Val.str "X")] "name" " Y "
      (Val.str "X") (Or.inl rfl) rfl,
   c9_first_wins_and_accumulate.2.1 [] "description" " D " (Or.inr rfl) rfl,
   c9_first_wins_and_accumulate.2.2.1 [("notes", Val.list [Val.str "a"])] " b "
      [Val.str "a"] rfl,
   c9_first_wins_and_accumulate.2.2.2.1 [("url", Val.list [Val.str "u1"])] "url"
      " u2 " [Val.str "u1"] (by decide) (by decide) (by decide) rfl⟩

/-!  Unfolding lemmas for the well-founded `dict_merge` mutual block. -/

theorem dict_merge_dicts (da db : List (String × Val)) :
    dict_merge (Val.dict da) (Val.dict db) = Val.dict (dm_entries da db) := by
  simp [dict_merge]

theorem dict_merge_str_left (s : String) (b : Val) : dict_merge (Val.str s) b = b := by
  cases b <;> simp [dict_merge]

theorem dict_merge_nat_left (n : Nat) (b : Val) : dict_merge (Val.nat n) b = b := by
  cases b <;> simp [dict_merge]

theorem dict_merge_list_left (l : List Val) (b : Val) : dict_merge (Val.list l) b = b := by
  cases b <;> simp [dict_merge]

theorem dict_merge_str_right (a : Val) (s : String) : dict_merge a (Val.str s) = Val.str s := by
  cases a <;> simp [dict_merge]

theorem dict_merge_nat_right (a : Val) (n : Nat) : dict_merge a (Val.nat n) = Val.nat n := by
  cases a <;> simp [dict_merge]

theorem dict_merge_list_right (a : Val) (l : List Val) : dict_merge a (Val.list l) = Val.list l := by
  cases a <;> simp [dict_merge]

theorem dm_entries_nil (da : List (String × Val)) : dm_entries da [] = da := by
  simp [dm_entries]

theorem dm_entries_cons (da : List (String × Val)) (k : String) (v : Val)
    (rest : List (String × Val)) :
    dm_entries da ((k, v) :: rest) = dm_entries (dm_insert da k v) rest := by
  simp [dm_entries]

theorem dm_insert_of_lookup_some (da : List (String × Val)) (k : String) (v old : Val)
    (h : lookupV da k = some old) :
    dm_insert da k v = replaceFirst da k (dict_merge old v) := by
  simp [dm_insert, h]

theorem dm_insert_of_lookup_none (da : List (String × Val)) (k : String) (v : Val)
    (h : lookupV da k = none) :
    dm_insert da k v = da ++ [(k, v)] := by
  simp [dm_insert, h]

/-!  Association-list lemmas about `lookupV`, `replaceFirst` and keys. -/

theorem keysOf_cons (k : String) (v : Val) (rest : List (String × Val)) :
    keysOf ((k, v) :: rest) = k :: keysOf rest := rfl

theorem keysOf_append (l1 l2 : List (String × Val)) :
    keysOf (l1 ++ l2) = keysOf l1 ++ keysOf l2 := by
  simp [keysOf]

theorem lookupV_some_mem (da : List (String × Val)) (k : String) (v : Val)
    (h : lookupV da k = some v) : k ∈ keysOf da := by
  induction da with
  | nil => simp [lookupV] at h
  | cons p rest ih =>
    obtain ⟨k1, v1⟩ := p
    by_cases hk : k1 = k
    · subst hk; simp [keysOf_cons]
    · simp [lookupV, hk] at h
      simp [keysOf_cons]
      exact Or.inr (ih h)

theorem lookupV_none_of_not_mem (da : List (String × Val)) (k : String)
    (h : k ∉ keysOf da) : lookupV da k = none := by
  induction da with
  | nil => simp [lookupV]
  | cons p rest ih =>
    obtain ⟨k1, v1⟩ := p
    simp [keysOf_cons] at h
    have hk : ¬ k1 = k := fun he => h.1 he.symm
    simp [lookupV, hk]
    exact ih h.2

theorem lookupV_append_of_some (l1 l2 : List (String × Val)) (k : String) (v : Val)
    (h : lookupV l1 k = some v) : lookupV (l1 ++ l2) k = some v := by
  induction l1 with
  | nil => simp [lookupV] at h
  | cons p rest ih =>
    obtain ⟨k1, v1⟩ := p
    by_cases hk : k1 = k
    · subst hk
      simp [lookupV] at h
      simp [lookupV, h]
    · simp [lookupV, hk] at h ⊢
      exact ih h

theorem lookupV_append_of_none (l1 l2 : List (String × Val)) (k : String)
    (h : lookupV l1 k = none) : lookupV (l1 ++ l2) k = lookupV l2 k := by
  induction l1 with
  | nil => simp [lookupV]
  | cons p rest ih =>
    obtain ⟨k1, v1⟩ := p
    by_cases hk : k1 = k
    · subst hk; simp [lookupV] at h
    · simp [lookupV, hk] at h ⊢
      exact ih h

theorem keysOf_replaceFirst (da : List (String × Val)) (k : String) (v : Val) :
    keysOf (replaceFirst da k v) = keysOf da := by
  induction da with
  | nil => simp [replaceFirst]
  | cons p rest ih =>
    obtain ⟨k1, v1⟩ := p
    by_cases hk : k1 = k <;> simp [replaceFirst, hk, keysOf_cons, ih]

theorem lookupV_replaceFirst_ne (da : List (String × Val)) (k1 : String) (x : Val)
    (k : String) (h : k1 ≠ k) : lookupV (replaceFirst da k1 x) k = lookupV da k := by
  induction da with
  | nil => simp [replaceFirst]
  | cons p rest ih =>
    obtain ⟨k2, v2⟩ := p
    by_cases hk : k2 = k1
    · subst hk
      simp [replaceFirst, lookupV, h]
    · simp [replaceFirst, hk, lookupV, ih]

theorem lookupV_replaceFirst_found (da : List (String × Val)) (k : String) (w x : Val)
    (h : lookupV da k = some w) : lookupV (replaceFirst da k x) k = some x := by
  induction da with
  | nil => simp [lookupV] at h
  | cons p rest ih =>
    obtain ⟨k1, v1⟩ := p
    by_cases hk : k1 = k
    · subst hk; simp [replaceFirst, lookupV]
    · simp [lookupV, hk] at h
      simp [replaceFirst, hk, lookupV, ih h]

theorem replaceFirst_lookup_self (da : List (String × Val)) (k : String) (w : Val)
    (h : lookupV da k = some w) : replaceFirst da k w = da := by
  induction da with
  | nil => simp [replaceFirst]
  | cons p rest ih =>
    obtain ⟨k1, v1⟩ := p
    by_cases hk : k1 = k
    · subst hk
      simp [lookupV] at h
      simp [replaceFirst, h]
    · simp [lookupV, hk] at h
      simp [replaceFirst, hk, ih h]

/-!  Lemmas about `dm_insert` and `dm_entries`. -/

theorem dm_insert_eq_of_lookup (da : List (String × Val)) (k : String) (v w : Val)
    (hl : lookupV da k = some w) (hm : dict_merge w v = w) :
    dm_insert da k v = da := by
  rw [dm_insert_of_lookup_some da k v w hl, hm, replaceFirst_lookup_self da k w hl]

theorem lookupV_dm_insert_ne (da : List (String × Val)) (k1 : String) (v : Val)
    (k : String) (h : k1 ≠ k) : lookupV (dm_insert da k1 v) k = lookupV da k := by
  cases hc : lookupV da k1 with
  | some old =>
    rw [dm_insert_of_lookup_some da k1 v old hc, lookupV_replaceFirst_ne da k1 _ k h]
  | none =>
    rw [dm_insert_of_lookup_none da k1 v hc]
    cases hk : lookupV da k with
    | some w => rw [lookupV_append_of_some da _ k w hk]
    | none =>
      rw [lookupV_append_of_none da _ k hk]
      simp [lookupV, h]

theorem lookupV_dm_insert_self_some (da : List (String × Val)) (k : String) (v w : Val)
    (h : lookupV da k = some w) :
    lookupV (dm_insert da k v) k = some (dict_merge w v) := by
  rw [dm_insert_of_lookup_some da k v w h]
  exact lookupV_replaceFirst_found da k w _ h

theorem lookupV_dm_insert_self_none (da : List (String × Val)) (k : String) (v : Val)
    (h : lookupV da k = none) :
    lookupV (dm_insert da k v) k = some v := by
  rw [dm_insert_of_lookup_none da k v h, lookupV_append_of_none da _ k h]
  simp [lookupV]

theorem keysOf_dm_insert_superset (da : List (String × Val)) (k : String) (v : Val)
    (k2 : String) (h : k2 ∈ keysOf da) : k2 ∈ keysOf (dm_insert da k v) := by
  cases hc : lookupV da k with
  | some old => rw [dm_insert_of_lookup_some da k v old hc, keysOf_replaceFirst]; exact h
  | none => rw [dm_insert_of_lookup_none da k v hc, keysOf_append]; exact List.mem_append_left _ h

theorem keysOf_dm_insert_self (da : List (String × Val)) (k : String) (v : Val) :
    k ∈ keysOf (dm_insert da k v) := by
  cases hc : lookupV da k with
  | some old =>
    rw [dm_insert_of_lookup_some da k v old hc, keysOf_replaceFirst]
    exact lookupV_some_mem da k old hc
  | none =>
    rw [dm_insert_of_lookup_none da k v hc, keysOf_append]
    simp [keysOf]

theorem keysOf_dm_insert_sub (da : List (String × Val)) (k : String) (v : Val)
    (k2 : String) (h : k2 ∈ keysOf (dm_insert da k v)) : k2 ∈ keysOf da ∨ k2 = k := by
  cases hc : lookupV da k with
  | some old =>
    rw [dm_insert_of_lookup_some da k v old hc, keysOf_replaceFirst] at h
    exact Or.inl h
  | none =>
    rw [dm_insert_of_lookup_none da k v hc, keysOf_append] at h
    rcases List.mem_append.mp h with h2 | h2
    · exact Or.inl h2
    · simp [keysOf] at h2
      exact Or.inr h2

theorem lookupV_dm_entries_not_mem (l : List (String × Val)) (k : String)
    (hk : k ∉ keysOf l) :
    ∀ da, lookupV (dm_entries da l) k = lookupV da k := by
  induction l with
  | nil => intro da; rw [dm_entries_nil]
  | cons p rest ih =>
    intro da
    obtain ⟨k1, v1⟩ := p
    rw [keysOf_cons] at hk
    simp at hk
    rw [dm_entries_cons, ih hk.2, lookupV_dm_insert_ne da k1 v1 k (fun he => hk.1 he.symm)]

theorem keysOf_dm_entries_left (l : List (String × Val)) (k2 : String) :
    ∀ da, k2 ∈ keysOf da → k2 ∈ keysOf (dm_entries da l) := by
  induction l with
  | nil => intro da h; rw [dm_entries_nil]; exact h
  | cons p rest ih =>
    intro da h
    obtain ⟨k1, v1⟩ := p
    rw [dm_entries_cons]
    exact ih _ (keysOf_dm_insert_superset da k1 v1 k2 h)

theorem keysOf_dm_entries_right (l : List (String × Val)) (k2 : String)
    (h : k2 ∈ keysOf l) : ∀ da, k2 ∈ keysOf (dm_entries da l) := by
  induction l with
  | nil => simp [keysOf] at h
  | cons p rest ih =>
    intro da
    obtain ⟨k1, v1⟩ := p
    rw [keysOf_cons] at h
    rw [dm_entries_cons]
    rcases List.mem_cons.mp h with h2 | h2
    · subst h2
      exact keysOf_dm_entries_left rest k2 _ (keysOf_dm_insert_self da k2 v1)
    · exact ih h2 _

theorem dm_entries_eq_self (l : List (String × Val)) :
    ∀ da, (∀ p ∈ l, lookupV da p.1 = some p.2) →
      (∀ p ∈ l, dict_merge p.2 p.2 = p.2) → dm_entries da l = da := by
  induction l with
  | nil => intro da _ _; rw [dm_entries_nil]
  | cons p rest ih =>
    intro da hlk hsm
    obtain ⟨k, v⟩ := p
    have h1 : dm_insert da k v = da :=
      dm_insert_eq_of_lookup da k v v (hlk (k, v) (List.mem_cons_self _ _))
        (hsm (k, v) (List.mem_cons_self _ _))
    rw [dm_entries_cons, h1]
    exact ih da (fun q hq => hlk q (List.mem_cons_of_mem _ hq))
      (fun q hq => hsm q (List.mem_cons_of_mem _ hq))

theorem lookupV_of_mem_nodup (da : List (String × Val)) (k : String) (v : Val)
    (hnd : (keysOf da).Nodup) (hmem : (k, v) ∈ da) : lookupV da k = some v := by
  induction da with
  | nil => simp at hmem
  | cons p rest ih =>
    obtain ⟨k1, v1⟩ := p
    rw [keysOf_cons] at hnd
    have hnd2 := List.nodup_cons.mp hnd
    rcases List.mem_cons.mp hmem with h | h
    · rw [Prod.mk.injEq] at h
      obtain ⟨hk, hv⟩ := h
      subst hk; subst hv
      simp [lookupV]
    · have hk : k1 ≠ k := by
        intro he
        subst he
        exact hnd2.1 (by
          have : k1 ∈ keysOf rest := by
            simp [keysOf]
            exact ⟨v, h⟩
          exact this)
      simp [lookupV, hk]
      exact ih hnd2.2 h

/-!  Well-formedness extraction and size lemmas. -/

theorem wfB_dict_head (k : String) (v : Val) (es : List (String × Val))
    (h : wfB (Val.dict ((k, v) :: es)) = true) :
    k ∉ keysOf es ∧ wfB v = true ∧ wfB (Val.dict es) = true := by
  simp [wfB] at h
  exact ⟨h.1.1, h.1.2, h.2⟩

theorem wfB_dict_nodup (es : List (String × Val)) (h : wfB (Val.dict es) = true) :
    (keysOf es).Nodup := by
  induction es with
  | nil => simp [keysOf]
  | cons p rest ih =>
    obtain ⟨k, v⟩ := p
    have h3 := wfB_dict_head k v rest h
    rw [keysOf_cons, List.nodup_cons]
    exact ⟨h3.1, ih h3.2.2⟩

theorem wfB_dict_entry (es : List (String × Val)) (h : wfB (Val.dict es) = true) :
    ∀ p ∈ es, wfB p.2 = true := by
  induction es with
  | nil => simp
  | cons p rest ih =>
    obtain ⟨k, v⟩ := p
    have h3 := wfB_dict_head k v rest h
    intro q hq
    rcases List.mem_cons.mp hq with h2 | h2
    · subst h2; exact h3.2.1
    · exact ih h3.2.2 q h2

theorem sizeOf_snd_lt_dict (es : List (String × Val)) (p : String × Val)
    (hp : p ∈ es) : sizeOf p.2 < sizeOf (Val.dict es) := by
  have h1 := List.sizeOf_lt_of_mem hp
  obtain ⟨k, v⟩ := p
  simp only [Prod.mk.sizeOf_spec] at h1
  simp only [Val.dict.sizeOf_spec]
  omega

/-!  Self-merge and right-idempotence of `dict_merge`. -/

theorem dict_merge_self_aux :
    ∀ n, ∀ v : Val, sizeOf v ≤ n → wfB v = true → dict_merge v v = v := by
  intro n
  induction n using Nat.strong_induction_on with
  | _ n ih =>
    intro v hsz hwf
    cases v with
    | str s => exact dict_merge_str_left s _
    | nat m => exact dict_merge_nat_left m _
    | list l => exact dict_merge_list_left l _
    | dict es =>
      rw [dict_merge_dicts]
      have h : dm_entries es es = es := by
        apply dm_entries_eq_self es es
        · intro p hp
          exact lookupV_of_mem_nodup es p.1 p.2 (wfB_dict_nodup es hwf) hp
        · intro p hp
          exact ih (sizeOf p.2)
            (lt_of_lt_of_le (sizeOf_snd_lt_dict es p hp) hsz) p.2 le_rfl
            (wfB_dict_entry es hwf p hp)
      rw [h]

theorem dict_merge_self (v : Val) (h : wfB v = true) : dict_merge v v = v :=
  dict_merge_self_aux (sizeOf v) v le_rfl h

theorem dm_entries_idem (l : List (String × Val)) :
    ∀ da, (keysOf l).Nodup →
      (∀ p ∈ l, dict_merge p.2 p.2 = p.2) →
      (∀ p ∈ l, ∀ x, dict_merge (dict_merge x p.2) p.2 = dict_merge x p.2) →
      dm_entries (dm_entries da l) l = dm_entries da l := by
  induction l with
  | nil => intro da _ _ _; rw [dm_entries_nil]
  | cons p rest ih =>
    intro da hnd hself hidem
    obtain ⟨k, v⟩ := p
    rw [keysOf_cons] at hnd
    have hnd2 := List.nodup_cons.mp hnd
    simp only [dm_entries_cons]
    have hlk : lookupV (dm_entries (dm_insert da k v) rest) k =
        lookupV (dm_insert da k v) k :=
      lookupV_dm_entries_not_mem rest k hnd2.1 (dm_insert da k v)
    have hins : dm_insert (dm_entries (dm_insert da k v) rest) k v =
        dm_entries (dm_insert da k v) rest := by
      cases hc : lookupV da k with
      | some w =>
        exact dm_insert_eq_of_lookup _ k v (dict_merge w v)
          (hlk.trans (lookupV_dm_insert_self_some da k v w hc))
          (hidem (k, v) (List.mem_cons_self _ _) w)
      | none =>
        exact dm_insert_eq_of_lookup _ k v v
          (hlk.trans (lookupV_dm_insert_self_none da k v hc))
          (hself (k, v) (List.mem_cons_self _ _))
    rw [hins]
    exact ih (dm_insert da k v) hnd2.2
      (fun q hq => hself q (List.mem_cons_of_mem _ hq))
      (fun q hq => hidem q (List.mem_cons_of_mem _ hq))

theorem lookupV_dm_entries_new (l : List (String × Val)) :
    ∀ da, (keysOf l).Nodup → (∀ k2 ∈ keysOf l, k2 ∉ keysOf da) →
      ∀ k v, lookupV l k = some v → lookupV (dm_entries da l) k = some v := by
  induction l with
  | nil => intro da _ _ k v hl; simp [lookupV] at hl
  | cons p rest ih =>
    intro da hnd hdisj k v hl
    obtain ⟨k1, v1⟩ := p
    rw [keysOf_cons] at hnd hdisj
    have hnd2 := List.nodup_cons.mp hnd
    rw [dm_entries_cons]
    by_cases hk : k1 = k
    · subst hk
      simp [lookupV] at hl
      subst hl
      have hnotin : k1 ∉ keysOf da := hdisj k1 (List.mem_cons_self _ _)
      rw [lookupV_dm_entries_not_mem rest k1 hnd2.1]
      exact lookupV_dm_insert_self_none da k1 v1
        (lookupV_none_of_not_mem da k1 hnotin)
    · simp [lookupV, hk] at hl
      refine ih (dm_insert da k1 v1) hnd2.2 ?_ k v hl
      intro k2 hk2 hk2in
      rcases keysOf_dm_insert_sub da k1 v1 k2 hk2in with h2 | h2
      · exact hdisj k2 (List.mem_cons_of_mem _ hk2) h2
      · exact hnd2.1 (h2 ▸ hk2)

theorem dict_merge_idem_aux :
    ∀ n, ∀ b : Val, sizeOf b ≤ n → wfB b = true →
      ∀ a, dict_merge (dict_merge a b) b = dict_merge a b := by
  intro n
  induction n using Nat.strong_induction_on with
  | _ n ih =>
    intro b hsz hwf a
    cases b with
    | str s => simp only [dict_merge_str_right]
    | nat m => simp only [dict_merge_nat_right]
    | list l => simp only [dict_merge_list_right]
    | dict db =>
      cases a with
      | str s => rw [dict_merge_str_left]; exact dict_merge_self _ hwf
      | nat m => rw [dict_merge_nat_left]; exact dict_merge_self _ hwf
      | list l => rw [dict_merge_list_left]; exact dict_merge_self _ hwf
      | dict da =>
        rw [dict_merge_dicts, dict_merge_dicts]
        have h : dm_entries (dm_entries da db) db = dm_entries da db := by
          apply dm_entries_idem db da (wfB_dict_nodup db hwf)
          · intro p hp
            exact dict_merge_self p.2 (wfB_dict_entry db hwf p hp)
          · intro p hp x
            exact ih (sizeOf p.2)
              (lt_of_lt_of_le (sizeOf_snd_lt_dict db p hp) hsz) p.2 le_rfl
              (wfB_dict_entry db hwf p hp) x
        rw [h]

/-- C4: for any value `a` and any well-formed value `b` (every Python
dict has distinct keys, recursively), merging the same addend a second
time changes nothing — `merge(merge(a, b), b) = merge(a, b)` — and
merging a tree into itself is the identity. -/
theorem c4_merge_right_idempotent (a b : Val) (hb : wfB b = true) :
    dict_merge (dict_merge a b) b = dict_merge a b ∧ dict_merge b b = b :=
  ⟨dict_merge_idem_aux (sizeOf b) b le_rfl hb a, dict_merge_self b hb⟩

/-- C4 witness: a concrete overlapping-key merge, repeated, and a
concrete nested self-merge. -/
theorem c4_merge_right_idempotent_witness :
    wfB (Val.dict [("x", Val.nat 2), ("y", Val.dict [("z", Val.str "s")])]) = true ∧
    (dict_merge (dict_merge (Val.dict [("x", Val.nat 1)])
        (Val.dict [("x", Val.nat 2), ("y", Val.dict [("z", Val.str "s")])]))
      (Val.dict [("x", Val.nat 2), ("y", Val.dict [("z", Val.str "s")])]) =
      dict_merge (Val.dict [("x", Val.nat 1)])
        (Val.dict [("x", Val.nat 2), ("y", Val.dict [("z", Val.str "s")])]) ∧
     dict_merge (Val.dict [("x", Val.nat 2), ("y", Val.dict [("z", Val.str "s")])])
        (Val.dict [("x", Val.nat 2), ("y", Val.dict [("z", Val.str "s")])]) =
        Val.dict [("x", Val.nat 2), ("y", Val.dict [("z", Val.str "s")])]) :=
  ⟨by simp [wfB, keysOf], c4_merge_right_idempotent _ _ (by simp [wfB, keysOf])⟩

/-- C5: merging two dicts is entry-merging; for disjoint key sets every
key of either side keeps its original value in the result, and in
general every key present in either argument is present in the merge
result. -/
theorem c5_merge_key_preservation (da db : List (String × Val))
    (hnd : (keysOf db).Nodup)
    (hdisj : ∀ k ∈ keysOf da, k ∉ keysOf db) :
    dict_merge (Val.dict da) (Val.dict db) = Val.dict (dm_entries da db) ∧
    (∀ k v, lookupV da k = some v → lookupV (dm_entries da db) k = some v) ∧
    (∀ k v, lookupV db k = some v → lookupV (dm_entries da db) k = some v) ∧
    (∀ (ea eb : List (String × Val)) k,
      k ∈ keysOf ea ∨ k ∈ keysOf eb → k ∈ keysOf (dm_entries ea eb)) := by
  refine ⟨dict_merge_dicts da db, ?_, ?_, ?_⟩
  · intro k v hl
    rw [lookupV_dm_entries_not_mem db k (hdisj k (lookupV_some_mem da k v hl)) da]
    exact hl
  · intro k v hl
    exact lookupV_dm_entries_new db da hnd
      (fun k2 hk2 hk2da => hdisj k2 hk2da hk2) k v hl
  · intro ea eb k hk
    rcases hk with h | h
    · exact keysOf_dm_entries_left eb k ea h
    · exact keysOf_dm_entries_right eb k h ea

/-- C5 witness: a disjoint two-key addend merged into a one-key dict:
both old and new bindings survive with their original values, and a key
of the addend is present in the result. -/
theorem c5_merge_key_preservation_witness :
    lookupV (dm_entries [("a", Val.nat 1)]
      [("b", Val.str "s"), ("c", Val.nat 2)]) "a" = some (Val.nat 1) ∧
    lookupV (dm_entries [("a", Val.nat 1)]
      [("b", Val.str "s"), ("c", Val.nat 2)]) "b" = some (Val.str "s") ∧
    "c" ∈ keysOf (dm_entries [("a", Val.nat 1)]
      [("b", Val.str "s"), ("c", Val.nat 2)]) :=
  have h := c5_merge_key_preservation [("a", Val.nat 1)]
    [("b", Val.str "s"), ("c", Val.nat 2)] (by decide) (by decide)
  ⟨h.2.1 "a" (Val.nat 1) rfl, h.2.2.1 "b" (Val.str "s") rfl,
   h.2.2.2 _ _ "c" (Or.inr (by decide))⟩

end GenUiInfo
